import Mathlib

/-!
Verification of the Dr.R L literature-search pipeline (`src/dr_r_agent.py`).

This file gives a shallow embedding of the pure data-flow of the pipeline:
the year filter (`_filter_by_year`), the relevance validator/scorer
(`_validate_papers`), the deduplicator (`_deduplicate_papers`), the response
classifier (`_safe_json_request`), PDF validation and per-record processing
(`_is_valid_pdf`, `_process_papers`), and the main orchestration (`search`,
`_save_all_logs`, `_create_download_package`).

Modelling conventions:
* Python dict-based records become the `Paper` structure; an absent optional
  field is the empty string (matching `paper.get(key, '')` in the source).
* The network is abstracted: each of the 17 per-source adapter calls inside
  `search` is an input (`SourceResult`): either an exception escaping the
  adapter (`raises`), or a returned record list together with the error and
  warning log entries the adapter appended internally while succeeding.
* `_download_pdf` is modelled twice: coarsely, for the `search`
  orchestration, as an oracle from the 1-based record index and the record to
  an optional (path, file bytes) pair plus the error-log entries it appended;
  and, for the acquisition claims, at the level of per-strategy attempt
  outcomes with the filesystem threaded through the strategy loop, so that a
  partial file written before a mid-stream exception is represented.  PyMuPDF
  is abstracted by an availability flag plus a page-count oracle on file
  bytes (`none` models `fitz.open` raising, which the source catches).
* Timestamps in log entries are dropped; everything else in a log entry is
  kept.  Filesystem state is restricted to the session's `Full_PDFs` folder,
  modelled as a path-keyed map of byte lists.
* Python's `list.sort(key=..., reverse=True)` is a stable descending sort; it
  is embedded as Mathlib's `List.insertionSort` with the total preorder
  "relevance score is at least", which computes exactly the stable descending
  reordering.
-/

namespace DrR

/-! ## Python string primitives used by the source

All of these work on the character list underlying a `String`, so that they
reduce inside the kernel on concrete inputs.  They model the Python `str`
methods the source uses, over ASCII data. -/

/-- Python `str.lower()` (ASCII model). -/
def strLower (s : String) : String :=
  String.mk (s.data.map Char.toLower)

/-- Python `len(s)` (character count). -/
def strLen (s : String) : Nat :=
  s.data.length

/-- Python `s[:n]`. -/
def strTake (s : String) (n : Nat) : String :=
  String.mk (s.data.take n)

/-- Python `s[n:]`. -/
def strDrop (s : String) (n : Nat) : String :=
  String.mk (s.data.drop n)

/-- Python `str.strip()` with no argument: drop leading and trailing
whitespace. -/
def strTrim (s : String) : String :=
  String.mk (((s.data.dropWhile Char.isWhitespace).reverse.dropWhile Char.isWhitespace).reverse)

/-- Bool-valued "`n` is a prefix of `h`" on char lists. -/
def startsList (n h : List Char) : Bool :=
  match n, h with
  | [], _ => true
  | _ :: _, [] => false
  | a :: as, b :: bs => a = b && startsList as bs

/-- Python `s.startswith(pfx)`. -/
def strStartsWith (s pfx : String) : Bool :=
  startsList pfx.data s.data

/-- Bool-valued "`n` occurs contiguously inside `h`" on char lists. -/
def infixList (n h : List Char) : Bool :=
  startsList n h ||
    match h with
    | [] => false
    | _ :: t => infixList n t

/-- Python `needle in hay` on strings (substring containment;
the empty needle is contained in everything, as in Python). -/
def strIn (needle hay : String) : Bool :=
  infixList needle.data hay.data

/-- Helper of `pySplit`: accumulate the current (reversed) token while
scanning. -/
def splitWsAux : List Char → List Char → List String
  | cur, [] => if cur = [] then [] else [String.mk cur.reverse]
  | cur, c :: cs =>
    if c.isWhitespace then
      if cur = [] then splitWsAux [] cs
      else String.mk cur.reverse :: splitWsAux [] cs
    else
      splitWsAux (c :: cur) cs

/-- Python `str.split()` with no argument: split on whitespace runs,
discarding empty fragments. -/
def pySplit (s : String) : List String :=
  splitWsAux [] s.data

/-- Python `str.isdigit()` restricted to ASCII digits: non-empty and all
characters are digits. -/
def pyIsDigit (s : String) : Bool :=
  s.data ≠ [] && s.data.all Char.isDigit

/-- Python `int(s)` for strings satisfying `pyIsDigit`. -/
def pyInt (s : String) : Int :=
  ((s.data.foldl (fun n c => n * 10 + (c.toNat - 48)) 0 : Nat) : Int)

/-- A Python `\w` word character (ASCII model: alphanumeric or underscore). -/
def isWordChar (c : Char) : Bool :=
  c.isAlphanum || c = '_'

/-- `re.sub(r'[^\w\s]', '', s)`: drop every character that is neither a word
character nor whitespace. -/
def stripPunct (s : String) : String :=
  String.mk (s.data.filter (fun c => isWordChar c || c.isWhitespace))

/-! ## The record type (`Record` in the spec, a dict in the source) -/

/-- A candidate bibliographic record.  Fields mirror the dict keys used by the
source; optional string fields default to `""` exactly as `dict.get(k, '')`
does.  Fields never read by the embedded functions (`pmid`, `arxiv_id`,
`journal`) are elided. -/
structure Paper where
  title : String := ""
  authors : String := ""
  abstract : String := ""
  doi : String := ""
  year : String := ""
  pdfUrl : String := ""
  pmcid : String := ""
  source : String := ""
  relevanceScore : Nat := 0
  accessType : String := ""
  localPdfPath : String := ""
  fileSize : Nat := 0
  downloadFailed : Bool := false
deriving DecidableEq

/-! ## `_filter_by_year` (src/dr_r_agent.py lines 222-235) -/

/-- `DrRLAgent._filter_by_year`: keep a paper when its `year` string is a
digit string inside the closed interval, or when it is not a digit string at
all (absent years are the empty string and are kept). -/
def filterByYear : List Paper → Int × Int → List Paper
  | [], _ => []
  | p :: rest, yr =>
    if pyIsDigit p.year then
      if yr.1 ≤ pyInt p.year ∧ pyInt p.year ≤ yr.2 then
        p :: filterByYear rest yr
      else
        filterByYear rest yr
    else
      p :: filterByYear rest yr

/-! ## `_validate_papers` (src/dr_r_agent.py lines 237-266) -/

/-- `set(query.lower().split())`, as a duplicate-free list. -/
def queryTermsOf (query : String) : List String :=
  (pySplit (strLower query)).dedup

/-- The accumulation loop of `_validate_papers`: title checks, relevance
check, and score assignment, in source order. -/
def validateCollect (queryTerms : List String) : List Paper → List Paper
  | [] => []
  | p :: rest =>
    if p.title = "" ∨ p.title = "No Title" then
      validateCollect queryTerms rest
    else if strLen (strLower p.title) < 10 then
      validateCollect queryTerms rest
    else
      let titleWords := pySplit (strLower p.title)
      let abst := strLower p.abstract
      let inTitle := queryTerms.filter (fun t => titleWords.contains t)
      let inAbst := queryTerms.any (fun t => strIn t abst)
      let hasRel := inTitle ≠ [] ∨ inAbst = true
      if queryTerms.length > 2 ∧ ¬hasRel then
        validateCollect queryTerms rest
      else
        { p with relevanceScore := inTitle.length * 2 + (if inAbst then 1 else 0) }
          :: validateCollect queryTerms rest

/-- The sort order of `validated.sort(key=relevance_score, reverse=True)`. -/
def scoreGe (a b : Paper) : Prop :=
  b.relevanceScore ≤ a.relevanceScore

instance : DecidableRel scoreGe :=
  fun a b => inferInstanceAs (Decidable (b.relevanceScore ≤ a.relevanceScore))

instance : IsTotal Paper scoreGe :=
  ⟨fun a b => by unfold scoreGe; exact Nat.le_total _ _⟩

instance : IsTrans Paper scoreGe :=
  ⟨fun _ _ _ h1 h2 => by unfold scoreGe at *; exact Nat.le_trans h2 h1⟩

/-- `DrRLAgent._validate_papers`: collect valid scored papers, then the
stable descending sort by score. -/
def validatePapers (papers : List Paper) (query : String) : List Paper :=
  List.insertionSort scoreGe (validateCollect (queryTermsOf query) papers)

/-! ## `_deduplicate_papers` (src/dr_r_agent.py lines 1164-1195) -/

/-- The fuzzy-title duplicate test of `_deduplicate_papers`: some previously
seen `title:`-key whose stored title has length within 4 of `tclean` and is a
substring of it or contains it.  `tclean` is whatever the Python local
`title_clean` holds at that point — for a DOI-keyed paper the stale value from
an earlier iteration. -/
def fuzzyTitleDup (seen : List String) (tclean : String) : Bool :=
  seen.any (fun ek =>
    strStartsWith ek "title:" &&
    ((strLen (strDrop ek 6) : Int) - (strLen tclean : Int)).natAbs < 5 &&
    (strIn tclean (strDrop ek 6) || strIn (strDrop ek 6) tclean))

/-- The loop of `_deduplicate_papers`.  `seen` is the insertion-ordered key
dict; `tclean` is the loop-carried Python local `title_clean`, updated only on
the title-key branch and left stale on the DOI branch (initially never read
before first assignment on any input the guard can reach, so `""` is a safe
initial value). -/
def dedupGo : List Paper → List String → String → List Paper
  | [], _, _ => []
  | p :: rest, seen, tclean =>
    let doi := strTrim (strLower p.doi)
    let title := strTrim (strLower p.title)
    if doi ≠ "" ∧ doi ≠ "n/a" ∧ strLen doi > 5 then
      let key := "doi:" ++ doi
      if seen.contains key || fuzzyTitleDup seen tclean then
        dedupGo rest seen tclean
      else
        p :: dedupGo rest (seen ++ [key]) tclean
    else
      let tc := strTrim (strTake (stripPunct title) 60)
      let key := "title:" ++ tc
      if seen.contains key || fuzzyTitleDup seen tc then
        dedupGo rest seen tc
      else
        p :: dedupGo rest (seen ++ [key]) tc

/-- `DrRLAgent._deduplicate_papers`. -/
def deduplicatePapers (papers : List Paper) : List Paper :=
  dedupGo papers [] ""

/-! ## `_safe_json_request` (src/dr_r_agent.py lines 111-163) -/

/-- The parsed payload `response.json()` yields on success, kept opaque. -/
structure JsonData where
  payload : String
deriving DecidableEq

/-- Outcome of the BeautifulSoup `<title>` extraction attempt over the first
1000 characters of the body (lines 140-146): the parse raised, found no
`<title>` tag, or found one with the given stripped text. -/
inductive SoupOut where
  | raised
  | noTitle
  | found (t : String)
deriving DecidableEq

/-- A transport response as `_safe_json_request` observes it.  `jsonResult`
is the outcome of `response.json()` (`none` = `json.JSONDecodeError`, whose
message is `jsonErr`); `soupTitle` is the outcome of the HTML-title
extraction. -/
structure Resp where
  status : Nat := 200
  contentType : String := ""
  body : String := ""
  jsonResult : Option JsonData := none
  jsonErr : String := ""
  soupTitle : SoupOut := SoupOut.raised
deriving DecidableEq

/-- What one call of `_safe_json_request` runs into: `requests` raising a
timeout, a connection error, any other exception (caught by the final
catch-all), or a response.  URL, method and request kwargs only select which
outcome occurs, so they are absorbed into this type. -/
inductive Transport where
  | timeout
  | connErr
  | exc (msg : String)
  | resp (r : Resp)
deriving DecidableEq

/-- The `(success, data-or-message)` pair `_safe_json_request` returns. -/
inductive ReqVal where
  | data (d : JsonData)
  | msg (s : String)
deriving DecidableEq

/-- content-type test of line 138: declared HTML and not JSON (the header
value is lower-cased first, line 135). -/
def htmlNotJson (ct : String) : Bool :=
  strIn "text/html" (strLower ct) && !(strIn "application/json" (strLower ct))

/-- `DrRLAgent._safe_json_request`: classify a transport outcome into the
`(success, value)` pair, following the source's rule order exactly. -/
def safeJsonRequest : Transport → Bool × ReqVal
  | Transport.timeout => (false, ReqVal.msg "Request timeout")
  | Transport.connErr => (false, ReqVal.msg "Connection error")
  | Transport.exc m => (false, ReqVal.msg m)
  | Transport.resp r =>
    if r.status = 429 then
      (false, ReqVal.msg "Rate limited (429)")
    else if r.status = 403 then
      (false, ReqVal.msg "Forbidden (403) - blocked or requires auth")
    else if r.status = 401 then
      (false, ReqVal.msg "Unauthorized (401) - check API key")
    else if r.status ≠ 200 then
      (false, ReqVal.msg ("HTTP " ++ toString r.status))
    else if htmlNotJson r.contentType then
      match r.soupTitle with
      | SoupOut.raised => (false, ReqVal.msg "HTML response (likely blocked or maintenance)")
      | SoupOut.noTitle => (false, ReqVal.msg ("HTML response: " ++ strTake "Unknown HTML page" 100))
      | SoupOut.found t => (false, ReqVal.msg ("HTML response: " ++ strTake t 100))
    else
      match r.jsonResult with
      | some d => (true, ReqVal.data d)
      | none =>
        if strStartsWith (strTrim r.body) "<" then
          (false, ReqVal.msg "Received HTML instead of JSON (API error or blocked)")
        else
          (false, ReqVal.msg ("JSON parse error: " ++ r.jsonErr))

/-! ## `_is_valid_pdf` (lines 1231-1256) and `_process_papers` (lines 1197-1229) -/

/-- A log entry appended by `log_error` (timestamp dropped). -/
structure ErrEntry where
  source : String
  error : String
  details : String
deriving DecidableEq

/-- A log entry appended by `log_warning` (timestamp dropped). -/
structure WarnEntry where
  source : String
  message : String
deriving DecidableEq

/-- The session's `Full_PDFs` folder: a path-keyed map of file bytes. -/
abbrev Fs := List (String × List Nat)

/-- Write (or overwrite) the file at `path`. -/
def fsSet (fs : Fs) (path : String) (bytes : List Nat) : Fs :=
  fs.filter (fun e => e.1 ≠ path) ++ [(path, bytes)]

/-- `os.remove(path)`. -/
def fsRemove (fs : Fs) (path : String) : Fs :=
  fs.filter (fun e => e.1 ≠ path)

/-- The 4-byte PDF magic signature `b'%PDF'`. -/
def pdfMagic : List Nat := [37, 80, 68, 70]

/-- `DrRLAgent._is_valid_pdf` on a file given as `none` (does not exist) or
`some bytes`.  `fitzAvail` is `fitz is not None`; `openRes` is the page count
of `fitz.open` (`none` = it raised, which the source catches and turns into
`False`). -/
def isValidPdf (fitzAvail : Bool) (openRes : Option Nat) (file : Option (List Nat)) : Bool :=
  match file with
  | none => false
  | some bytes =>
    if bytes.length < 1000 then false
    else if bytes.take 4 ≠ pdfMagic then false
    else if fitzAvail then
      match openRes with
      | none => false
      | some n => decide (0 < n)
    else true

/-- The error-log entries a `_is_valid_pdf` call appends: exactly one, when
it reaches `fitz.open` and that raises (lines 1249, 1254-1256). -/
def pdfValidationLog (fitzAvail : Bool) (openRes : Option Nat)
    (file : Option (List Nat)) (path : String) : List ErrEntry :=
  match file with
  | none => []
  | some bytes =>
    if bytes.length < 1000 then []
    else if bytes.take 4 ≠ pdfMagic then []
    else if fitzAvail ∧ openRes = none then
      [⟨"PDF Validation", "fitz open raised", "File: " ++ path⟩]
    else []

/-- Coarse oracle for `DrRLAgent._download_pdf`, used by the `search`
orchestration: from the 1-based record index and the record, the optional
(path, bytes) of a fully written downloaded file, plus the error-log entries
the download strategies appended.  A `none` outcome carries no filesystem
information: the partial file a mid-stream exception can leave behind (lines
1319-1332) is outside this abstraction and is modelled by the refined
`downloadPdf` / `processWithDownload` functions below. -/
abbrev DlOracle := Nat → Paper → Option (String × List Nat) × List ErrEntry

/-- Loop state of `_process_papers`: 1-based index, accumulated `self.results`,
the `Full_PDFs` folder contents, and accumulated error logs. -/
structure ProcState where
  idx : Nat
  results : List Paper
  fs : Fs
  errLogs : List ErrEntry
deriving DecidableEq

/-- One iteration of the `_process_papers` loop (lines 1203-1226) over the
coarse download oracle.  Its download-failure branch leaves the filesystem
unchanged, so the partial-file residue of an interrupted download is not
visible at this level; `dProcessStep` below refines it. -/
def processStep (dl : DlOracle) (fitzAvail : Bool) (openPdf : List Nat → Option Nat)
    (st : ProcState) (p : Paper) : ProcState :=
  if p.pdfUrl ≠ "" then
    let dres := dl st.idx p
    let errs := st.errLogs ++ dres.2
    match dres.1 with
    | some pb =>
      let fs1 := fsSet st.fs pb.1 pb.2
      let errs := errs ++ pdfValidationLog fitzAvail (openPdf pb.2) (some pb.2) pb.1
      if isValidPdf fitzAvail (openPdf pb.2) (some pb.2) then
        { idx := st.idx + 1
          results := st.results ++
            [{ p with localPdfPath := pb.1, accessType := "PDF", fileSize := pb.2.length }]
          fs := fs1
          errLogs := errs }
      else
        { idx := st.idx + 1
          results := st.results ++
            [{ p with localPdfPath := "", accessType := "Abstract Only", downloadFailed := true }]
          fs := fsRemove fs1 pb.1
          errLogs := errs }
    | none =>
      { idx := st.idx + 1
        results := st.results ++
          [{ p with localPdfPath := "", accessType := "Abstract Only", downloadFailed := true }]
        fs := st.fs
        errLogs := errs }
  else
    { idx := st.idx + 1
      results := st.results ++
        [{ p with localPdfPath := "", accessType := "Abstract Only" }]
      fs := st.fs
      errLogs := st.errLogs }

/-- Result of `_process_papers`, including the warning `_compile_abstracts_pdf`
emits when it is reached without PyMuPDF (lines 1228-1229, 1339-1341). -/
structure ProcResult where
  results : List Paper
  fs : Fs
  errLogs : List ErrEntry
  warnLogs : List WarnEntry

/-- `DrRLAgent._process_papers`. -/
def processPapers (dl : DlOracle) (fitzAvail : Bool) (openPdf : List Nat → Option Nat)
    (papers : List Paper) : ProcResult :=
  let st := papers.foldl (processStep dl fitzAvail openPdf) ⟨1, [], [], []⟩
  let abstractCount := (st.results.filter (fun p => p.accessType = "Abstract Only")).length
  { results := st.results
    fs := st.fs
    errLogs := st.errLogs
    warnLogs :=
      if 0 < abstractCount ∧ fitzAvail = false then
        [⟨"PDF Compilation", "PyMuPDF not available"⟩]
      else [] }

/-! ## `search` (lines 165-220), `_save_all_logs` (1423-1438),
`_create_download_package` (1440-1461) -/

/-- What one adapter call inside the `search` loop does: raise past the
adapter boundary, or return a record list after appending the given internal
error/warning log entries. -/
inductive SourceResult where
  | raises (msg : String)
  | returns (papers : List Paper) (errLogged : List ErrEntry) (warnLogged : List WarnEntry)
deriving DecidableEq

/-- A `log_search` entry (timestamp dropped). -/
structure SLog where
  source : String
  query : String
  count : Nat
  status : String
deriving DecidableEq

/-- State of the per-source loop of `search` (lines 193-208). -/
structure LoopState where
  errorLogs : List ErrEntry
  warningLogs : List WarnEntry
  searchLogs : List SLog
  allPapers : List Paper
deriving DecidableEq

/-- Line 197-198: the year filter is applied only when a year range was given
and the adapter returned a non-empty list. -/
def pyYearAdjust (yearRange : Option (Int × Int)) (papers : List Paper) : List Paper :=
  match yearRange with
  | some yr => if papers ≠ [] then filterByYear papers yr else papers
  | none => papers

/-- One iteration of the `search` per-source loop: the try/except body of
lines 194-208. -/
def stepSource (query : String) (yearRange : Option (Int × Int))
    (st : LoopState) (src : String × SourceResult) : LoopState :=
  match src.2 with
  | SourceResult.raises msg =>
    { st with
      errorLogs := st.errorLogs ++ [⟨src.1, msg, "query=" ++ query⟩]
      searchLogs := st.searchLogs ++ [⟨src.1, query, 0, "FAILED"⟩] }
  | SourceResult.returns papers el wl =>
    let valid := validatePapers (pyYearAdjust yearRange papers) query
    { errorLogs := st.errorLogs ++ el
      warningLogs := st.warningLogs ++ wl
      searchLogs := st.searchLogs ++ [⟨src.1, query, valid.length, "SUCCESS"⟩]
      allPapers := st.allPapers ++ valid }

/-- The whole per-source loop of `search`. -/
def searchLoop (query : String) (yearRange : Option (Int × Int))
    (sources : List (String × SourceResult)) : LoopState :=
  sources.foldl (stepSource query yearRange) ⟨[], [], [], []⟩

/-- A value of the dict returned by `_create_download_package` (strings and
integer counts only — the source dict holds nothing else). -/
inductive RVal where
  | s (v : String)
  | n (v : Nat)
deriving DecidableEq

/-- Python `dict[key]` lookup on the report (first match; keys are unique). -/
def lookupKey (k : String) : List (String × RVal) → Option RVal
  | [] => none
  | e :: rest => if e.1 = k then some e.2 else lookupKey k rest

/-- The dict literal of `_create_download_package` (lines 1452-1461). -/
def packageReport (sessionFolder sessionId : String) (results : List Paper)
    (errorLogs : List ErrEntry) (warnings : List WarnEntry) : List (String × RVal) :=
  [ ("zip_path", RVal.s (sessionFolder ++ ".zip"))
  , ("folder_path", RVal.s sessionFolder)
  , ("total_papers", RVal.n results.length)
  , ("pdf_count", RVal.n (results.filter (fun r => r.accessType = "PDF")).length)
  , ("abstract_count", RVal.n (results.filter (fun r => r.accessType = "Abstract Only")).length)
  , ("session_id", RVal.s sessionId)
  , ("error_count", RVal.n errorLogs.length)
  , ("warning_count", RVal.n warnings.length) ]

/-- The CSV files `_save_all_logs` writes: one per non-empty log list. -/
def savedLogCsvs (e : List ErrEntry) (w : List WarnEntry) (s : List SLog) : List String :=
  (if e ≠ [] then ["Error_Log.csv"] else [])
    ++ (if w ≠ [] then ["Warning_Log.csv"] else [])
    ++ (if s ≠ [] then ["Search_Log.csv"] else [])

/-- Observable outcome of one `search()` call: final log lists, the final
`self.results`, the `Full_PDFs` folder, the CSV artifacts written, and the
return value (`none` embeds Python `None`, line 214; `some dict` the package
of line 220). -/
structure SearchResult where
  errorLogs : List ErrEntry
  warningLogs : List WarnEntry
  searchLogs : List SLog
  results : List Paper
  fsFinal : Fs
  savedCsvs : List String
  report : Option (List (String × RVal))

/-- `DrRLAgent.search`: run every adapter under the isolation boundary,
deduplicate, and either return `None` after saving logs (empty pool) or
process, write artifacts, and return the download package. -/
def searchRun (query : String) (yearRange : Option (Int × Int))
    (sources : List (String × SourceResult)) (dl : DlOracle) (fitzAvail : Bool)
    (openPdf : List Nat → Option Nat) (sessionFolder sessionId : String) : SearchResult :=
  let st := searchLoop query yearRange sources
  let unique := deduplicatePapers st.allPapers
  if unique = [] then
    { errorLogs := st.errorLogs
      warningLogs := st.warningLogs
      searchLogs := st.searchLogs
      results := []
      fsFinal := []
      savedCsvs := savedLogCsvs st.errorLogs st.warningLogs st.searchLogs
      report := none }
  else
    let pr := processPapers dl fitzAvail openPdf unique
    let finalErr := st.errorLogs ++ pr.errLogs
    let finalWarn := st.warningLogs ++ pr.warnLogs
    { errorLogs := finalErr
      warningLogs := finalWarn
      searchLogs := st.searchLogs
      results := pr.results
      fsFinal := pr.fs
      savedCsvs := ["Research_Log.csv"] ++ savedLogCsvs finalErr finalWarn st.searchLogs
      report := some (packageReport sessionFolder sessionId pr.results finalErr finalWarn) }

/-! ## Derived views of the search loop, used by the theorems below -/

/-- Error-log entries one source contributes to the loop state: the single
catch-all entry for a raising adapter, or the entries a returning adapter
appended internally. -/
def sourceErrLogs (query : String) (s : String × SourceResult) : List ErrEntry :=
  match s.2 with
  | SourceResult.raises m => [⟨s.1, m, "query=" ++ query⟩]
  | SourceResult.returns _ el _ => el

/-- Warning-log entries one source contributes. -/
def sourceWarnLogs (s : String × SourceResult) : List WarnEntry :=
  match s.2 with
  | SourceResult.raises _ => []
  | SourceResult.returns _ _ wl => wl

/-- The validated batch one source contributes to the candidate pool. -/
def sourceBlock (query : String) (yearRange : Option (Int × Int))
    (s : String × SourceResult) : List Paper :=
  match s.2 with
  | SourceResult.raises _ => []
  | SourceResult.returns ps _ _ => validatePapers (pyYearAdjust yearRange ps) query

/-- The one `log_search` outcome entry each source contributes. -/
def sourceOutcomeLog (query : String) (yearRange : Option (Int × Int))
    (s : String × SourceResult) : SLog :=
  match s.2 with
  | SourceResult.raises _ => ⟨s.1, query, 0, "FAILED"⟩
  | SourceResult.returns ps _ _ =>
    ⟨s.1, query, (validatePapers (pyYearAdjust yearRange ps) query).length, "SUCCESS"⟩

/-- The internal (non-raising) error logs of a source. -/
def sourceInternalErr (s : String × SourceResult) : List ErrEntry :=
  match s.2 with
  | SourceResult.raises _ => []
  | SourceResult.returns _ el _ => el

/-- Whether a source raised. -/
def isRaises : SourceResult → Bool
  | SourceResult.raises _ => true
  | SourceResult.returns _ _ _ => false

/-- Number of adapters that raised. -/
def countRaises (sources : List (String × SourceResult)) : Nat :=
  (sources.filter (fun s => isRaises s.2)).length

/-! ## C5 — the deduplicator's fuzzy rule and DOI-keyed candidates -/

/-- A DOI-less paper; its title key and clean title enter `seen`. -/
def c5paper1 : Paper := { title := "Effects of Gastric Cancer Treatment" }

/-- A paper with a well-formed normalized DOI (length > 5, not `n/a`) and an
unrelated title. -/
def c5paper2 : Paper := { title := "A Completely Different Paper", doi := "10.1234/abcd" }

/-- C5: refuted by the stale `title_clean` in `_deduplicate_papers`.  The
DOI-keyed `c5paper2` (fresh DOI key, title unrelated to any stored title key)
is dropped as a duplicate of `c5paper1`: the fuzzy title comparison runs for
it against the loop-carried `title_clean` left over from `c5paper1`'s
iteration.  Alone, `c5paper2` survives, so the drop is caused purely by the
fuzzy rule firing for a DOI-keyed candidate. -/
theorem dedup_drops_doi_keyed_paper_via_fuzzy_title :
    deduplicatePapers [c5paper1, c5paper2] = [c5paper1] ∧
    deduplicatePapers [c5paper2] = [c5paper2] ∧
    strLen (strTrim (strLower c5paper2.doi)) > 5 ∧
    strTrim (strLower c5paper2.doi) ≠ "n/a" ∧
    ("doi:" ++ strTrim (strLower c5paper2.doi)) ≠
      ("title:" ++ strTrim (strTake (stripPunct (strTrim (strLower c5paper1.title))) 60)) := by
  decide

/-! ## C6 — the year filter -/

/-- The keep-predicate of the claim, stated in its words: keep when the year
field is absent or not a parseable digit string, or the parsed year lies in
the closed interval. -/
def yearKeepSpec (s e : Int) (p : Paper) : Bool :=
  !pyIsDigit p.year || (decide (s ≤ pyInt p.year) && decide (pyInt p.year ≤ e))

theorem filterByYear_eq_filter (s e : Int) :
    ∀ papers : List Paper, filterByYear papers (s, e) = papers.filter (yearKeepSpec s e) := by
  intro papers
  induction papers with
  | nil => rfl
  | cons p rest ih =>
    cases hd : pyIsDigit p.year with
    | false => simp [filterByYear, hd, yearKeepSpec, ih]
    | true =>
      by_cases hr : s ≤ pyInt p.year ∧ pyInt p.year ≤ e
      · simp [filterByYear, hd, hr, yearKeepSpec, ih, hr.1, hr.2]
      · have hk : yearKeepSpec s e p = false := by
          rcases not_and_or.mp hr with h | h <;> simp [yearKeepSpec, hd, h]
        simp [filterByYear, hd, hr, ih, List.filter_cons, hk]

/-- A paper published in 2020. -/
def c6p2020 : Paper := { title := "boundary paper a", year := "2020" }

/-- A paper published in 2019. -/
def c6p2019 : Paper := { title := "boundary paper b", year := "2019" }

/-- A paper with no year field (`paper.get('year', '')` is `""`). -/
def c6pNoYear : Paper := { title := "boundary paper c" }

/-- C6: `_filter_by_year` keeps exactly the candidates whose year is absent
or unparseable, or parses into the closed interval; the (2020, 2020)
boundary behaves as claimed, and a candidate with a missing year is kept for
every interval. -/
theorem year_filter_keeps_exactly_in_range_or_unparseable :
    (∀ (papers : List Paper) (s e : Int),
        filterByYear papers (s, e) = papers.filter (yearKeepSpec s e)) ∧
    filterByYear [c6p2020] (2020, 2020) = [c6p2020] ∧
    filterByYear [c6p2019] (2020, 2020) = [] ∧
    (∀ s e : Int, filterByYear [c6pNoYear] (s, e) = [c6pNoYear]) := by
  refine ⟨fun papers s e => filterByYear_eq_filter s e papers, by decide, by decide, ?_⟩
  intro s e
  have h : pyIsDigit c6pNoYear.year = false := by decide
  simp [filterByYear, h]

/-- C6 witness: the filter characterization evaluated at a concrete list and
interval. -/
theorem year_filter_witness :
    filterByYear [c6p2020, c6p2019, c6pNoYear] (2020, 2021)
      = [c6p2020, c6p2019, c6pNoYear].filter (yearKeepSpec 2020 2021) :=
  year_filter_keeps_exactly_in_range_or_unparseable.1 [c6p2020, c6p2019, c6pNoYear] 2020 2021

/-! ## C8, C10 — the response classifier -/

/-- The error message of the disguised-HTML branch, by outcome of the
`<title>` extraction. -/
def htmlErrMsg : SoupOut → String
  | SoupOut.raised => "HTML response (likely blocked or maintenance)"
  | SoupOut.noTitle => "HTML response: " ++ strTake "Unknown HTML page" 100
  | SoupOut.found t => "HTML response: " ++ strTake t 100

/-- C8: `_safe_json_request` applies its rules in order: non-200 statuses are
classified first (with distinguished reasons for 429/403/401 and the code
otherwise); a declared-HTML non-JSON 200 response yields the `<title>`-carrying
error and its result does not depend on the JSON parse outcome (the parse is
never attempted); otherwise the JSON parse decides, with the `<`-body check
distinguishing masquerading HTML from other parse failures, and success gives
back the parsed data. -/
theorem response_classifier_rule_order :
    ∀ r : Resp,
      (r.status = 429 →
        safeJsonRequest (Transport.resp r) = (false, ReqVal.msg "Rate limited (429)")) ∧
      (r.status = 403 →
        safeJsonRequest (Transport.resp r)
          = (false, ReqVal.msg "Forbidden (403) - blocked or requires auth")) ∧
      (r.status = 401 →
        safeJsonRequest (Transport.resp r)
          = (false, ReqVal.msg "Unauthorized (401) - check API key")) ∧
      (r.status ≠ 200 → r.status ≠ 429 → r.status ≠ 403 → r.status ≠ 401 →
        safeJsonRequest (Transport.resp r)
          = (false, ReqVal.msg ("HTTP " ++ toString r.status))) ∧
      (r.status = 200 → htmlNotJson r.contentType = true →
        safeJsonRequest (Transport.resp r) = (false, ReqVal.msg (htmlErrMsg r.soupTitle)) ∧
        ∀ j, safeJsonRequest (Transport.resp { r with jsonResult := j })
              = safeJsonRequest (Transport.resp r)) ∧
      (r.status = 200 → htmlNotJson r.contentType = false →
        (∀ d, r.jsonResult = some d →
          safeJsonRequest (Transport.resp r) = (true, ReqVal.data d)) ∧
        (r.jsonResult = none → strStartsWith (strTrim r.body) "<" = true →
          safeJsonRequest (Transport.resp r)
            = (false, ReqVal.msg "Received HTML instead of JSON (API error or blocked)")) ∧
        (r.jsonResult = none → strStartsWith (strTrim r.body) "<" = false →
          safeJsonRequest (Transport.resp r)
            = (false, ReqVal.msg ("JSON parse error: " ++ r.jsonErr)))) := by
  intro r
  refine ⟨?_, ?_, ?_, ?_, ?_, ?_⟩
  · intro h; simp [safeJsonRequest, h]
  · intro h; simp [safeJsonRequest, h]
  · intro h; simp [safeJsonRequest, h]
  · intro h200 h429 h403 h401; simp [safeJsonRequest, h200, h429, h403, h401]
  · intro h200 hh
    constructor
    · cases ht : r.soupTitle <;> simp [safeJsonRequest, h200, hh, ht, htmlErrMsg]
    · intro j
      cases ht : r.soupTitle <;> simp [safeJsonRequest, h200, hh, ht]
  · intro h200 hh
    refine ⟨?_, ?_, ?_⟩
    · intro d hd; simp [safeJsonRequest, h200, hh, hd]
    · intro hn hb; simp [safeJsonRequest, h200, hh, hn, hb]
    · intro hn hb; simp [safeJsonRequest, h200, hh, hn, hb]

/-- The disguised-HTML 200 response of the spec's example. -/
def c8resp : Resp :=
  { status := 200, contentType := "text/html"
    body := "<html><title>Service Unavailable</title></html>"
    jsonResult := none, soupTitle := SoupOut.found "Service Unavailable" }

/-- C8 witness: the example response classifies to the title-carrying error,
via the rule-order theorem. -/
theorem response_classifier_witness :
    safeJsonRequest (Transport.resp c8resp)
      = (false, ReqVal.msg "HTML response: Service Unavailable") := by
  have h := (response_classifier_rule_order c8resp).2.2.2.2.1 rfl (by decide)
  calc safeJsonRequest (Transport.resp c8resp)
      = (false, ReqVal.msg (htmlErrMsg c8resp.soupTitle)) := h.1
    _ = (false, ReqVal.msg "HTML response: Service Unavailable") := by decide

/-- C10: `_safe_json_request` is total over every modelled transport outcome
(the URL, method and request kwargs only select which outcome occurs) and
keeps the pair discipline: `success = true` carries exactly the parsed JSON
data of a 200 response, `success = false` carries an error-message string.
Totality itself is structural: `safeJsonRequest` is a total Lean function,
mirroring the catch-all boundary of lines 116-163. -/
theorem safe_json_request_pair_discipline :
    ∀ t : Transport,
      ((safeJsonRequest t).1 = true →
        ∃ r d, t = Transport.resp r ∧ r.jsonResult = some d ∧
          (safeJsonRequest t).2 = ReqVal.data d) ∧
      ((safeJsonRequest t).1 = false →
        ∃ m, (safeJsonRequest t).2 = ReqVal.msg m) := by
  intro t
  cases t with
  | timeout =>
    exact ⟨fun h => by simp [safeJsonRequest] at h, fun _ => ⟨"Request timeout", rfl⟩⟩
  | connErr =>
    exact ⟨fun h => by simp [safeJsonRequest] at h, fun _ => ⟨"Connection error", rfl⟩⟩
  | exc m =>
    exact ⟨fun h => by simp [safeJsonRequest] at h, fun _ => ⟨m, rfl⟩⟩
  | resp r =>
    by_cases h429 : r.status = 429
    · exact ⟨fun h => by simp [safeJsonRequest, h429] at h,
        fun _ => ⟨"Rate limited (429)", by simp [safeJsonRequest, h429]⟩⟩
    by_cases h403 : r.status = 403
    · exact ⟨fun h => by simp [safeJsonRequest, h429, h403] at h,
        fun _ => ⟨"Forbidden (403) - blocked or requires auth",
          by simp [safeJsonRequest, h429, h403]⟩⟩
    by_cases h401 : r.status = 401
    · exact ⟨fun h => by simp [safeJsonRequest, h429, h403, h401] at h,
        fun _ => ⟨"Unauthorized (401) - check API key",
          by simp [safeJsonRequest, h429, h403, h401]⟩⟩
    by_cases h200 : r.status = 200
    case neg =>
      exact ⟨fun h => by simp [safeJsonRequest, h429, h403, h401, h200] at h,
        fun _ => ⟨"HTTP " ++ toString r.status,
          by simp [safeJsonRequest, h429, h403, h401, h200]⟩⟩
    by_cases hh : htmlNotJson r.contentType = true
    · have hres : safeJsonRequest (Transport.resp r)
          = (false, ReqVal.msg (htmlErrMsg r.soupTitle)) := by
        cases ht : r.soupTitle <;>
          simp [safeJsonRequest, h429, h403, h401, h200, hh, ht, htmlErrMsg]
      refine ⟨fun h => ?_, fun _ => ⟨htmlErrMsg r.soupTitle, by rw [hres]⟩⟩
      rw [hres] at h; simp at h
    cases hj : r.jsonResult with
    | some d =>
      have hres : safeJsonRequest (Transport.resp r) = (true, ReqVal.data d) := by
        simp [safeJsonRequest, h429, h403, h401, h200, hh, hj]
      refine ⟨fun _ => ⟨r, d, rfl, hj, by rw [hres]⟩, fun hfalse => ?_⟩
      rw [hres] at hfalse; simp at hfalse
    | none =>
      by_cases hb : strStartsWith (strTrim r.body) "<" = true
      · exact ⟨fun h => by simp [safeJsonRequest, h429, h403, h401, h200, hh, hj, hb] at h,
          fun _ => ⟨"Received HTML instead of JSON (API error or blocked)",
            by simp [safeJsonRequest, h429, h403, h401, h200, hh, hj, hb]⟩⟩
      · exact ⟨fun h => by simp [safeJsonRequest, h429, h403, h401, h200, hh, hj, hb] at h,
          fun _ => ⟨"JSON parse error: " ++ r.jsonErr,
            by simp [safeJsonRequest, h429, h403, h401, h200, hh, hj, hb]⟩⟩

/-- C10 witness: a timeout and a parsed-JSON success, both through the
discipline theorem. -/
theorem safe_json_request_witness :
    (∃ m, (safeJsonRequest Transport.timeout).2 = ReqVal.msg m) ∧
    (∃ r d, Transport.resp ({ jsonResult := some ⟨"ok"⟩ } : Resp) = Transport.resp r ∧
      r.jsonResult = some d ∧
      (safeJsonRequest (Transport.resp ({ jsonResult := some ⟨"ok"⟩ } : Resp))).2
        = ReqVal.data d) :=
  ⟨(safe_json_request_pair_discipline Transport.timeout).2 rfl,
   (safe_json_request_pair_discipline
      (Transport.resp ({ jsonResult := some ⟨"ok"⟩ } : Resp))).1 (by decide)⟩

/-! ## C9 — PDF validation and per-record processing -/

theorem isValidPdf_iff (fa : Bool) (openRes : Option Nat) (file : Option (List Nat)) :
    isValidPdf fa openRes file = true ↔
      ∃ bytes, file = some bytes ∧ 1000 ≤ bytes.length ∧ bytes.take 4 = pdfMagic ∧
        (fa = true → ∃ n, openRes = some n ∧ 0 < n) := by
  cases file with
  | none => simp [isValidPdf]
  | some fb =>
    constructor
    · intro h
      simp only [isValidPdf] at h
      by_cases hlen : fb.length < 1000
      · rw [if_pos hlen] at h; exact absurd h (by simp)
      rw [if_neg hlen] at h
      by_cases htake : fb.take 4 = pdfMagic
      · rw [if_neg (by simp [htake])] at h
        refine ⟨fb, rfl, by omega, htake, ?_⟩
        intro hfa
        rw [hfa] at h
        simp only [if_true] at h
        cases ho : openRes with
        | none => rw [ho] at h; exact absurd h (by simp)
        | some n =>
          rw [ho] at h
          exact ⟨n, rfl, by simpa using h⟩
      · rw [if_pos (by simp [htake])] at h; exact absurd h (by simp)
    · rintro ⟨b, hb, hlen, htake, hopen⟩
      injection hb with hb'
      subst hb'
      simp only [isValidPdf]
      rw [if_neg (by omega), if_neg (by simp [htake])]
      cases hfa : fa with
      | false => simp
      | true =>
        obtain ⟨n, hn, hpos⟩ := hopen hfa
        rw [hn]
        simpa using hpos

/-! ### A refined model of `_download_pdf` (lines 1258-1334)

The coarse `DlOracle` used by the `search` orchestration abstracts
`_download_pdf` into its return value, which collapses one error path: an
exception in the middle of `iter_content` streaming (lines 1319-1323) leaves
a partially written file at `filepath`, the `except` of line 1330 continues
to the next strategy without cleanup, and if no later strategy succeeds the
function returns `None` with the partial file still on disk — which
`_process_papers` then never deletes, because `pdf_path` is `None` at line
1214.  The model below threads the filesystem through the strategy loop so
that this path is expressible. -/

/-- What one download strategy attempt does, observed at the filesystem: no
write at all (non-200 status, unpaywall miss, or an exception before the body
stream opens); a partial write ended by a mid-stream exception (caught at
line 1330, `continue` without cleanup); or a complete write (after which line
1325 validates). -/
inductive AttemptOut where
  | noWrite
  | writeRaises (bytes : List Nat)
  | writes (bytes : List Nat)
deriving DecidableEq

/-- `os.path.exists` plus read: the file at `path`, if any. -/
def fsGet (fs : Fs) (path : String) : Option (List Nat) :=
  match fs.find? (fun e => e.1 = path) with
  | some e => some e.2
  | none => none

/-- The strategy loop of `_download_pdf` (lines 1292-1334) at the level of
attempt outcomes, threading the `Full_PDFs` folder.  A complete write is
validated: valid returns the path, invalid is removed (line 1328) and the
loop continues.  A mid-stream exception leaves its partial bytes in place and
continues — the uncleaned error path. -/
def downloadGo (fa : Bool) (op : List Nat → Option Nat) (path : String) :
    List AttemptOut → Fs → Option String × Fs
  | [], fs => (none, fs)
  | AttemptOut.noWrite :: rest, fs => downloadGo fa op path rest fs
  | AttemptOut.writeRaises b :: rest, fs => downloadGo fa op path rest (fsSet fs path b)
  | AttemptOut.writes b :: rest, fs =>
    let fs1 := fsSet fs path b
    if isValidPdf fa (op b) (some b) then (some path, fs1)
    else downloadGo fa op path rest (fsRemove fs1 path)

/-- `DrRLAgent._download_pdf` (lines 1258-1334): the pre-existing-file check
of line 1270 (an existing valid file short-circuits; an existing invalid one
is left alone and the strategies run), then the strategy loop. -/
def downloadPdf (fa : Bool) (op : List Nat → Option Nat) (path : String)
    (attempts : List AttemptOut) (fs : Fs) : Option String × Fs :=
  match fsGet fs path with
  | some b =>
    if isValidPdf fa (op b) (some b) then (some path, fs)
    else downloadGo fa op path attempts fs
  | none => downloadGo fa op path attempts fs

/-- Zero padding of the Python format `f"{index:03d}"`. -/
def pad3 (i : Nat) : String :=
  if i < 10 then "00" ++ toString i
  else if i < 100 then "0" ++ toString i
  else toString i

/-- `re.sub(r'[^\w\s-]', '', paper['title'])[:50].strip()` with the
`paper_{index}` fallback (lines 1263-1265; note this sanitizer keeps
hyphens, unlike the deduplicator's). -/
def pdfSafeTitle (p : Paper) (i : Nat) : String :=
  let t := strTrim (strTake (String.mk (p.title.data.filter
    (fun c => isWordChar c || c.isWhitespace || c = '-'))) 50)
  if t = "" then "paper_" ++ toString i else t

/-- The target filename of line 1267: `f"{index:03d}_{safe_title}.pdf"`. -/
def pdfFilePath (i : Nat) (p : Paper) : String :=
  pad3 i ++ "_" ++ pdfSafeTitle p i ++ ".pdf"

/-- Loop state of `_process_papers` over the refined download model. -/
structure DProcState where
  idx : Nat
  results : List Paper
  fs : Fs
deriving DecidableEq

/-- One iteration of the `_process_papers` loop (lines 1203-1226) with
`_download_pdf` given by its per-strategy attempt outcomes.  In the
`pdf_path is None` branch the filesystem is untouched: line 1214 skips
`os.remove` because `pdf_path` is falsy, so a partial file left by a
mid-stream exception stays on disk. -/
def dProcessStep (att : Nat → Paper → List AttemptOut) (fa : Bool)
    (op : List Nat → Option Nat) (st : DProcState) (p : Paper) : DProcState :=
  if p.pdfUrl ≠ "" then
    let path := pdfFilePath st.idx p
    let dres := downloadPdf fa op path (att st.idx p) st.fs
    match dres.1 with
    | some pth =>
      match fsGet dres.2 pth with
      | some b =>
        if isValidPdf fa (op b) (some b) then
          ⟨st.idx + 1,
           st.results ++
             [{ p with localPdfPath := pth, accessType := "PDF", fileSize := b.length }],
           dres.2⟩
        else
          ⟨st.idx + 1,
           st.results ++
             [{ p with localPdfPath := "", accessType := "Abstract Only", downloadFailed := true }],
           fsRemove dres.2 pth⟩
      | none =>
        ⟨st.idx + 1,
         st.results ++
           [{ p with localPdfPath := "", accessType := "Abstract Only", downloadFailed := true }],
         dres.2⟩
    | none =>
      ⟨st.idx + 1,
       st.results ++
         [{ p with localPdfPath := "", accessType := "Abstract Only", downloadFailed := true }],
       dres.2⟩
  else
    ⟨st.idx + 1,
     st.results ++ [{ p with localPdfPath := "", accessType := "Abstract Only" }],
     st.fs⟩

/-- `_process_papers` over the refined download model: the final results list
and the final `Full_PDFs` folder. -/
def processWithDownload (att : Nat → Paper → List AttemptOut) (fa : Bool)
    (op : List Nat → Option Nat) (papers : List Paper) : List Paper × Fs :=
  let st := papers.foldl (dProcessStep att fa op) ⟨1, [], []⟩
  (st.results, st.fs)

theorem downloadGo_fs_prop (fa : Bool) (op : List Nat → Option Nat) (path : String)
    (Res : List Nat → Prop) :
    ∀ (attempts : List AttemptOut) (fs : Fs),
      (∀ e ∈ fs, isValidPdf fa (op e.2) (some e.2) = true ∨ Res e.2) →
      (∀ b, AttemptOut.writeRaises b ∈ attempts → Res b) →
      ∀ e ∈ (downloadGo fa op path attempts fs).2,
        isValidPdf fa (op e.2) (some e.2) = true ∨ Res e.2 := by
  intro attempts
  induction attempts with
  | nil => intro fs hfs _ e he; exact hfs e he
  | cons a rest ih =>
    intro fs hfs hatt e he
    cases a with
    | noWrite =>
      simp only [downloadGo] at he
      exact ih fs hfs (fun b hb => hatt b (List.mem_cons_of_mem _ hb)) e he
    | writeRaises b =>
      simp only [downloadGo] at he
      refine ih (fsSet fs path b) ?_ (fun b' hb' => hatt b' (List.mem_cons_of_mem _ hb')) e he
      intro e' he'
      simp only [fsSet] at he'
      rcases List.mem_append.mp he' with hl | hr
      · exact hfs e' (List.mem_of_mem_filter hl)
      · rw [List.mem_singleton] at hr
        subst hr
        exact Or.inr (hatt b (List.mem_cons_self _ _))
    | writes b =>
      simp only [downloadGo] at he
      split at he
      next hv =>
        simp only [fsSet] at he
        rcases List.mem_append.mp he with hl | hr
        · exact hfs e (List.mem_of_mem_filter hl)
        · rw [List.mem_singleton] at hr
          subst hr
          exact Or.inl hv
      next hv =>
        refine ih (fsRemove (fsSet fs path b) path) ?_
          (fun b' hb' => hatt b' (List.mem_cons_of_mem _ hb')) e he
        intro e' he'
        simp only [fsRemove, fsSet] at he'
        have hmem := List.mem_of_mem_filter he'
        rcases List.mem_append.mp hmem with hl | hr
        · exact hfs e' (List.mem_of_mem_filter hl)
        · rw [List.mem_singleton] at hr
          subst hr
          exact absurd (List.mem_filter.mp he').2 (by simp)

theorem downloadPdf_fs_prop (fa : Bool) (op : List Nat → Option Nat) (path : String)
    (Res : List Nat → Prop) (attempts : List AttemptOut) (fs : Fs)
    (hfs : ∀ e ∈ fs, isValidPdf fa (op e.2) (some e.2) = true ∨ Res e.2)
    (hatt : ∀ b, AttemptOut.writeRaises b ∈ attempts → Res b) :
    ∀ e ∈ (downloadPdf fa op path attempts fs).2,
      isValidPdf fa (op e.2) (some e.2) = true ∨ Res e.2 := by
  intro e he
  unfold downloadPdf at he
  split at he
  next b hget =>
    split at he
    · exact hfs e he
    · exact downloadGo_fs_prop fa op path Res attempts fs hfs hatt e he
  next hget =>
    exact downloadGo_fs_prop fa op path Res attempts fs hfs hatt e he

theorem downloadGo_fst_some (fa : Bool) (op : List Nat → Option Nat) (path : String) :
    ∀ (attempts : List AttemptOut) (fs : Fs) (pth : String),
      (downloadGo fa op path attempts fs).1 = some pth → pth = path := by
  intro attempts
  induction attempts with
  | nil => intro fs pth h; simp [downloadGo] at h
  | cons a rest ih =>
    intro fs pth h
    cases a with
    | noWrite =>
      simp only [downloadGo] at h
      exact ih _ _ h
    | writeRaises b =>
      simp only [downloadGo] at h
      exact ih _ _ h
    | writes b =>
      simp only [downloadGo] at h
      split at h
      · simp only [Option.some.injEq] at h
        exact h.symm
      · exact ih _ _ h

theorem downloadPdf_fst_some (fa : Bool) (op : List Nat → Option Nat) (path : String)
    (attempts : List AttemptOut) (fs : Fs) (pth : String)
    (h : (downloadPdf fa op path attempts fs).1 = some pth) : pth = path := by
  unfold downloadPdf at h
  split at h
  next b hget =>
    split at h
    · simp only [Option.some.injEq] at h
      exact h.symm
    · exact downloadGo_fst_some fa op path attempts fs pth h
  next hget =>
    exact downloadGo_fst_some fa op path attempts fs pth h

/-- The per-record guarantee of `_process_papers`: a record's access type is
one of the two terminal values, and `PDF` only arises from a download the
validator accepted, with the strategy loop's target path and the on-disk size
recorded on the record. -/
def dRecordOk (fa : Bool) (op : List Nat → Option Nat) (q : Paper) : Prop :=
  (q.accessType = "PDF" ∨ q.accessType = "Abstract Only") ∧
  (q.accessType = "PDF" →
    ∃ i p bytes, q.localPdfPath = pdfFilePath i p ∧
      isValidPdf fa (op bytes) (some bytes) = true ∧ q.fileSize = bytes.length)

theorem dProcessStep_fs_prop (att : Nat → Paper → List AttemptOut) (fa : Bool)
    (op : List Nat → Option Nat) (st : DProcState) (p : Paper)
    (hst : ∀ e ∈ st.fs, isValidPdf fa (op e.2) (some e.2) = true ∨
      ∃ i p', AttemptOut.writeRaises e.2 ∈ att i p') :
    ∀ e ∈ (dProcessStep att fa op st p).fs,
      isValidPdf fa (op e.2) (some e.2) = true ∨
      ∃ i p', AttemptOut.writeRaises e.2 ∈ att i p' := by
  intro e he
  unfold dProcessStep at he
  dsimp only at he
  have hdl := downloadPdf_fs_prop fa op (pdfFilePath st.idx p)
    (fun b => ∃ i p', AttemptOut.writeRaises b ∈ att i p')
    (att st.idx p) st.fs hst (fun b hb => ⟨st.idx, p, hb⟩)
  split at he
  · split at he
    next pth hsome =>
      split at he
      next b hget =>
        split at he
        next hv => exact hdl e he
        next hv => exact hdl e (List.mem_of_mem_filter he)
      next hget => exact hdl e he
    next hnone => exact hdl e he
  · exact hst e he

theorem dProcessStep_results_ok (att : Nat → Paper → List AttemptOut) (fa : Bool)
    (op : List Nat → Option Nat) (st : DProcState) (p : Paper)
    (hst : ∀ q ∈ st.results, dRecordOk fa op q) :
    ∀ q ∈ (dProcessStep att fa op st p).results, dRecordOk fa op q := by
  intro q hq
  unfold dProcessStep at hq
  dsimp only at hq
  split at hq
  · split at hq
    next pth hsome =>
      split at hq
      next b hget =>
        split at hq
        next hv =>
          rcases List.mem_append.mp hq with hl | hr
          · exact hst q hl
          · rw [List.mem_singleton] at hr
            subst hr
            refine ⟨Or.inl rfl, fun _ => ⟨st.idx, p, b, ?_, hv, rfl⟩⟩
            exact downloadPdf_fst_some fa op (pdfFilePath st.idx p) (att st.idx p) st.fs pth hsome
        next hv =>
          rcases List.mem_append.mp hq with hl | hr
          · exact hst q hl
          · rw [List.mem_singleton] at hr
            subst hr
            exact ⟨Or.inr rfl, fun hcontra => absurd hcontra (by simp)⟩
      next hget =>
        rcases List.mem_append.mp hq with hl | hr
        · exact hst q hl
        · rw [List.mem_singleton] at hr
          subst hr
          exact ⟨Or.inr rfl, fun hcontra => absurd hcontra (by simp)⟩
    next hnone =>
      rcases List.mem_append.mp hq with hl | hr
      · exact hst q hl
      · rw [List.mem_singleton] at hr
        subst hr
        exact ⟨Or.inr rfl, fun hcontra => absurd hcontra (by simp)⟩
  · rcases List.mem_append.mp hq with hl | hr
    · exact hst q hl
    · rw [List.mem_singleton] at hr
      subst hr
      exact ⟨Or.inr rfl, fun hcontra => absurd hcontra (by simp)⟩

theorem dFold_fs_prop (att : Nat → Paper → List AttemptOut) (fa : Bool)
    (op : List Nat → Option Nat) :
    ∀ (papers : List Paper) (st : DProcState),
      (∀ e ∈ st.fs, isValidPdf fa (op e.2) (some e.2) = true ∨
        ∃ i p', AttemptOut.writeRaises e.2 ∈ att i p') →
      ∀ e ∈ (papers.foldl (dProcessStep att fa op) st).fs,
        isValidPdf fa (op e.2) (some e.2) = true ∨
        ∃ i p', AttemptOut.writeRaises e.2 ∈ att i p' := by
  intro papers
  induction papers with
  | nil => intro st hst; exact hst
  | cons p rest ih =>
    intro st hst
    exact ih (dProcessStep att fa op st p) (dProcessStep_fs_prop att fa op st p hst)

theorem dFold_results_ok (att : Nat → Paper → List AttemptOut) (fa : Bool)
    (op : List Nat → Option Nat) :
    ∀ (papers : List Paper) (st : DProcState),
      (∀ q ∈ st.results, dRecordOk fa op q) →
      ∀ q ∈ (papers.foldl (dProcessStep att fa op) st).results, dRecordOk fa op q := by
  intro papers
  induction papers with
  | nil => intro st hst; exact hst
  | cons p rest ih =>
    intro st hst
    exact ih (dProcessStep att fa op st p) (dProcessStep_results_ok att fa op st p hst)

/-- Two partial bytes from an interrupted stream: not a valid PDF. -/
def c9partialBytes : List Nat := [37, 80]

/-- A record whose only download strategy is its own `pdf_url`. -/
def c9leakPaper : Paper := { title := "A paper with a flaky link", pdfUrl := "http://x/p.pdf" }

/-- Attempt outcomes: the single strategy raises mid-stream after writing two
bytes. -/
def c9leakAtt : Nat → Paper → List AttemptOut :=
  fun _ _ => [AttemptOut.writeRaises c9partialBytes]

/-- C9 counterexample: a mid-stream exception during the record's only
download strategy (lines 1319-1332) leaves a partially written file; the
strategy loop continues without cleanup, `_download_pdf` returns `None`, and
`_process_papers` skips deletion because `pdf_path` is `None` (line 1214).
After processing, the invalid partial file is still on disk, refuting "never
left on disk". -/
theorem partial_download_left_on_disk :
    (processWithDownload c9leakAtt true (fun _ => some 1) [c9leakPaper]).2
      = [("001_A paper with a flaky link.pdf", c9partialBytes)] ∧
    isValidPdf true (some 1) (some c9partialBytes) = false ∧
    ((processWithDownload c9leakAtt true (fun _ => some 1) [c9leakPaper]).1.map
        (fun q => (q.accessType, q.downloadFailed)))
      = [("Abstract Only", true)] := by
  decide

/-- C9 (amended): `_is_valid_pdf` accepts exactly an existing file of at
least 1000 bytes starting with the `%PDF` signature that (when PyMuPDF is
available) opens with at least one page; a downloaded file that undergoes
and fails this validation is deleted immediately (lines 1325-1328 and
1214-1215), so after `_process_papers` every file left in the session's PDF
folder is either validated or the partial residue of a download interrupted
mid-stream — the one kind of invalid file the code never deletes; and a
record is marked `PDF`, with file size and local path recorded, only for a
download that passed validation, every other record ending `Abstract
Only`. -/
theorem pdf_validation_deletion_and_residue :
    (∀ (fa : Bool) (openRes : Option Nat) (file : Option (List Nat)),
      isValidPdf fa openRes file = true ↔
        ∃ bytes, file = some bytes ∧ 1000 ≤ bytes.length ∧ bytes.take 4 = pdfMagic ∧
          (fa = true → ∃ n, openRes = some n ∧ 0 < n)) ∧
    (∀ (att : Nat → Paper → List AttemptOut) (fa : Bool)
        (op : List Nat → Option Nat) (papers : List Paper),
      (∀ e ∈ (processWithDownload att fa op papers).2,
        isValidPdf fa (op e.2) (some e.2) = true ∨
        ∃ i p, AttemptOut.writeRaises e.2 ∈ att i p) ∧
      (∀ q ∈ (processWithDownload att fa op papers).1, dRecordOk fa op q)) := by
  refine ⟨isValidPdf_iff, fun att fa op papers => ⟨?_, ?_⟩⟩
  · intro e he
    exact dFold_fs_prop att fa op papers ⟨1, [], []⟩ (by simp) e he
  · intro q hq
    exact dFold_results_ok att fa op papers ⟨1, [], []⟩ (by simp) q hq

/-- Bytes of a well-formed small PDF file (magic signature + 1000 bytes). -/
def c9bytes : List Nat := pdfMagic ++ List.replicate 1000 0

set_option maxRecDepth 4000

/-- C9 witness: the validation iff accepts a well-formed file, and the
residue characterization holds on the concrete leaking run, via the amended
theorem. -/
theorem pdf_residue_witness :
    isValidPdf true (some 1) (some c9bytes) = true ∧
    (∀ e ∈ (processWithDownload c9leakAtt true (fun _ => some 1) [c9leakPaper]).2,
      isValidPdf true ((fun _ => some 1) e.2) (some e.2) = true ∨
      ∃ i p, AttemptOut.writeRaises e.2 ∈ c9leakAtt i p) :=
  ⟨(pdf_validation_deletion_and_residue.1 true (some 1) (some c9bytes)).mpr
      ⟨c9bytes, rfl, by simp [c9bytes, pdfMagic], rfl, fun _ => ⟨1, rfl, by simp⟩⟩,
   (pdf_validation_deletion_and_residue.2 c9leakAtt true (fun _ => some 1) [c9leakPaper]).1⟩

/-! ## C7 — the relevance validator/scorer -/

theorem mem_validateCollect (qt : List String) :
    ∀ (papers : List Paper) (p : Paper), p ∈ validateCollect qt papers →
      (p.title ≠ "" ∧ p.title ≠ "No Title" ∧ 10 ≤ strLen (strLower p.title)) ∧
      p.relevanceScore =
        (qt.filter (fun t => (pySplit (strLower p.title)).contains t)).length * 2 +
          (if qt.any (fun t => strIn t (strLower p.abstract)) then 1 else 0) ∧
      (2 < qt.length →
        (qt.filter (fun t => (pySplit (strLower p.title)).contains t) ≠ [] ∨
          qt.any (fun t => strIn t (strLower p.abstract)) = true)) := by
  intro papers
  induction papers with
  | nil => intro p hp; cases hp
  | cons q rest ih =>
    intro p hp
    unfold validateCollect at hp
    split at hp
    next hT => exact ih p hp
    next hT =>
      split at hp
      next hL => exact ih p hp
      next hL =>
        dsimp only at hp
        split at hp
        next hK => exact ih p hp
        next hK =>
          rcases List.mem_cons.mp hp with heq | htail
          · subst heq
            push_neg at hT
            rw [Decidable.not_and_iff_or_not, not_not] at hK
            dsimp only
            refine ⟨⟨hT.1, hT.2, by omega⟩, by simp, ?_⟩
            intro h2
            rcases hK with hK | hK
            · omega
            · simpa using hK
          · exact ih p htail

theorem filter_score_insertionSort (k : Nat) (l : List Paper) :
    (List.insertionSort scoreGe l).filter (fun p => p.relevanceScore = k)
      = l.filter (fun p => p.relevanceScore = k) := by
  have hpair : (l.filter (fun p => p.relevanceScore = k)).Pairwise scoreGe := by
    apply List.pairwise_of_forall_mem_list
    intro a ha b hb
    have ha' := (List.mem_filter.mp ha).2
    have hb' := (List.mem_filter.mp hb).2
    simp only [decide_eq_true_eq] at ha' hb'
    unfold scoreGe
    rw [ha', hb']
  have hsub : List.Sublist (l.filter (fun p => p.relevanceScore = k))
      (List.insertionSort scoreGe l) :=
    List.sublist_insertionSort hpair (List.filter_sublist l)
  have hself : (l.filter (fun p => p.relevanceScore = k)).filter
        (fun p => p.relevanceScore = k)
      = l.filter (fun p => p.relevanceScore = k) :=
    List.filter_eq_self.mpr (fun a ha => (List.mem_filter.mp ha).2)
  have hsub2 : List.Sublist (l.filter (fun p => p.relevanceScore = k))
      ((List.insertionSort scoreGe l).filter (fun p => p.relevanceScore = k)) := by
    have h2 := hsub.filter (fun p => p.relevanceScore = k)
    rwa [hself] at h2
  have hperm : List.Perm
      ((List.insertionSort scoreGe l).filter (fun p => p.relevanceScore = k))
      (l.filter (fun p => p.relevanceScore = k)) :=
    (List.perm_insertionSort scoreGe l).filter _
  exact (hsub2.eq_of_length hperm.length_eq.symm).symm

/-- Number of distinct lower-cased query terms appearing in the title's
whitespace token set (claim wording). -/
def titleHitCount (query : String) (p : Paper) : Nat :=
  ((queryTermsOf query).filter (fun t => (pySplit (strLower p.title)).contains t)).length

/-- Whether some query term occurs as a substring of the lower-cased
abstract (claim wording). -/
def abstractHit (query : String) (p : Paper) : Bool :=
  (queryTermsOf query).any (fun t => strIn t (strLower p.abstract))

/-- C7: every survivor of `_validate_papers` carries
`relevance_score = 2 * (distinct query terms in the title token set)
+ (1 if a query term occurs in the abstract)`; survivors pass the title
checks; with more than two query terms no survivor lacks a relevance signal;
and the output is sorted by score descending, stably (for each score class
the output order equals the arrival order of the pre-sort accumulation). -/
theorem validator_scores_and_orders :
    ∀ (query : String) (papers : List Paper),
      (∀ p ∈ validatePapers papers query,
        p.relevanceScore
          = 2 * titleHitCount query p + (if abstractHit query p then 1 else 0)) ∧
      (∀ p ∈ validatePapers papers query,
        p.title ≠ "" ∧ p.title ≠ "No Title" ∧ 10 ≤ strLen (strLower p.title)) ∧
      (2 < (queryTermsOf query).length →
        ∀ p ∈ validatePapers papers query,
          titleHitCount query p ≠ 0 ∨ abstractHit query p = true) ∧
      List.Sorted scoreGe (validatePapers papers query) ∧
      (∀ k, (validatePapers papers query).filter (fun p => p.relevanceScore = k)
          = (validateCollect (queryTermsOf query) papers).filter
              (fun p => p.relevanceScore = k)) := by
  intro query papers
  refine ⟨?_, ?_, ?_, ?_, ?_⟩
  · intro p hp
    have h := mem_validateCollect (queryTermsOf query) papers p
      ((List.mem_insertionSort scoreGe).mp hp)
    rw [h.2.1]
    unfold titleHitCount abstractHit
    rw [Nat.mul_comm]
  · intro p hp
    exact (mem_validateCollect (queryTermsOf query) papers p
      ((List.mem_insertionSort scoreGe).mp hp)).1
  · intro h2 p hp
    have h := (mem_validateCollect (queryTermsOf query) papers p
      ((List.mem_insertionSort scoreGe).mp hp)).2.2 h2
    rcases h with h | h
    · left
      unfold titleHitCount
      intro h0
      exact h (List.length_eq_zero.mp h0)
    · right
      unfold abstractHit
      exact h
  · exact List.sorted_insertionSort scoreGe _
  · intro k
    exact filter_score_insertionSort k _

/-- A candidate matching two of the three query terms in its title (the
spec's worked example shape). -/
def c7paper : Paper :=
  { title := "gastric cancer outcomes in adults", abstract := "none available" }

/-- A candidate with no relevance signal at all. -/
def c7paperNoSignal : Paper :=
  { title := "unrelated biology paper methods", abstract := "" }

/-- C7 witness: on the three-term query, the signal-free candidate is
discarded and the remaining survivor scores 4; the output is sorted, via the
validator theorem. -/
theorem validator_witness :
    (validatePapers [c7paperNoSignal, c7paper] "gastric cancer treatment").map
        (fun p => p.relevanceScore) = [4] ∧
    List.Sorted scoreGe (validatePapers [c7paperNoSignal, c7paper] "gastric cancer treatment") :=
  ⟨by decide,
   (validator_scores_and_orders "gastric cancer treatment"
      [c7paperNoSignal, c7paper]).2.2.2.1⟩

/-! ## Search-loop structure lemmas (C1-C4) -/

theorem searchLoop_foldl (query : String) (yr : Option (Int × Int)) :
    ∀ (sources : List (String × SourceResult)) (st : LoopState),
      sources.foldl (stepSource query yr) st =
        ⟨st.errorLogs ++ sources.flatMap (sourceErrLogs query),
         st.warningLogs ++ sources.flatMap sourceWarnLogs,
         st.searchLogs ++ sources.map (sourceOutcomeLog query yr),
         st.allPapers ++ (sources.map (sourceBlock query yr)).flatten⟩ := by
  intro sources
  induction sources with
  | nil => intro st; cases st; simp
  | cons s rest ih =>
    intro st
    rw [List.foldl_cons, ih]
    cases s with
    | mk name res =>
      cases res with
      | raises m =>
        simp [stepSource, sourceErrLogs, sourceWarnLogs, sourceOutcomeLog, sourceBlock]
      | returns ps el wl =>
        simp [stepSource, sourceErrLogs, sourceWarnLogs, sourceOutcomeLog, sourceBlock]

theorem searchLoop_eq (query : String) (yr : Option (Int × Int))
    (sources : List (String × SourceResult)) :
    searchLoop query yr sources =
      ⟨sources.flatMap (sourceErrLogs query),
       sources.flatMap sourceWarnLogs,
       sources.map (sourceOutcomeLog query yr),
       (sources.map (sourceBlock query yr)).flatten⟩ := by
  unfold searchLoop
  rw [searchLoop_foldl]
  simp

theorem mem_dedupGo :
    ∀ (l : List Paper) (seen : List String) (tc : String) (p : Paper),
      p ∈ dedupGo l seen tc → p ∈ l := by
  intro l
  induction l with
  | nil => intro seen tc p h; simp [dedupGo] at h
  | cons q rest ih =>
    intro seen tc p h
    unfold dedupGo at h
    dsimp only at h
    split at h
    · split at h
      · exact List.mem_cons_of_mem _ (ih _ _ _ h)
      · rcases List.mem_cons.mp h with heq | htail
        · exact heq ▸ List.mem_cons_self _ _
        · exact List.mem_cons_of_mem _ (ih _ _ _ htail)
    · split at h
      · exact List.mem_cons_of_mem _ (ih _ _ _ h)
      · rcases List.mem_cons.mp h with heq | htail
        · exact heq ▸ List.mem_cons_self _ _
        · exact List.mem_cons_of_mem _ (ih _ _ _ htail)

theorem procStep_results_map_score (dl : DlOracle) (fa : Bool)
    (op : List Nat → Option Nat) (st : ProcState) (p : Paper) :
    ((processStep dl fa op st p).results).map (fun q => q.relevanceScore)
      = st.results.map (fun q => q.relevanceScore) ++ [p.relevanceScore] := by
  unfold processStep
  dsimp only
  split
  · split
    · split <;> simp
    · simp
  · simp

theorem procStep_results_map_title (dl : DlOracle) (fa : Bool)
    (op : List Nat → Option Nat) (st : ProcState) (p : Paper) :
    ((processStep dl fa op st p).results).map (fun q => q.title)
      = st.results.map (fun q => q.title) ++ [p.title] := by
  unfold processStep
  dsimp only
  split
  · split
    · split <;> simp
    · simp
  · simp

theorem procFold_results_map_score (dl : DlOracle) (fa : Bool)
    (op : List Nat → Option Nat) :
    ∀ (papers : List Paper) (st : ProcState),
      ((papers.foldl (processStep dl fa op) st).results).map (fun q => q.relevanceScore)
        = st.results.map (fun q => q.relevanceScore)
            ++ papers.map (fun q => q.relevanceScore) := by
  intro papers
  induction papers with
  | nil => intro st; simp
  | cons p rest ih =>
    intro st
    rw [List.foldl_cons, ih, procStep_results_map_score]
    simp

theorem procFold_results_map_title (dl : DlOracle) (fa : Bool)
    (op : List Nat → Option Nat) :
    ∀ (papers : List Paper) (st : ProcState),
      ((papers.foldl (processStep dl fa op) st).results).map (fun q => q.title)
        = st.results.map (fun q => q.title) ++ papers.map (fun q => q.title) := by
  intro papers
  induction papers with
  | nil => intro st; simp
  | cons p rest ih =>
    intro st
    rw [List.foldl_cons, ih, procStep_results_map_title]
    simp

theorem processPapers_results_map_score (dl : DlOracle) (fa : Bool)
    (op : List Nat → Option Nat) (papers : List Paper) :
    ((processPapers dl fa op papers).results).map (fun q => q.relevanceScore)
      = papers.map (fun q => q.relevanceScore) := by
  unfold processPapers
  dsimp only
  rw [procFold_results_map_score]
  simp

theorem processPapers_results_map_title (dl : DlOracle) (fa : Bool)
    (op : List Nat → Option Nat) (papers : List Paper) :
    ((processPapers dl fa op papers).results).map (fun q => q.title)
      = papers.map (fun q => q.title) := by
  unfold processPapers
  dsimp only
  rw [procFold_results_map_title]
  simp

theorem searchRun_of_empty (query : String) (yr : Option (Int × Int))
    (sources : List (String × SourceResult)) (dl : DlOracle) (fa : Bool)
    (op : List Nat → Option Nat) (sf sid : String)
    (h : deduplicatePapers (searchLoop query yr sources).allPapers = []) :
    searchRun query yr sources dl fa op sf sid =
      ⟨(searchLoop query yr sources).errorLogs,
       (searchLoop query yr sources).warningLogs,
       (searchLoop query yr sources).searchLogs,
       [], [],
       savedLogCsvs (searchLoop query yr sources).errorLogs
         (searchLoop query yr sources).warningLogs
         (searchLoop query yr sources).searchLogs,
       none⟩ := by
  unfold searchRun
  dsimp only
  rw [if_pos h]

theorem searchRun_of_nonempty (query : String) (yr : Option (Int × Int))
    (sources : List (String × SourceResult)) (dl : DlOracle) (fa : Bool)
    (op : List Nat → Option Nat) (sf sid : String)
    (h : ¬ deduplicatePapers (searchLoop query yr sources).allPapers = []) :
    searchRun query yr sources dl fa op sf sid =
      (let st := searchLoop query yr sources
       let pr := processPapers dl fa op (deduplicatePapers st.allPapers)
       let finalErr := st.errorLogs ++ pr.errLogs
       let finalWarn := st.warningLogs ++ pr.warnLogs
       ⟨finalErr, finalWarn, st.searchLogs, pr.results, pr.fs,
        ["Research_Log.csv"] ++ savedLogCsvs finalErr finalWarn st.searchLogs,
        some (packageReport sf sid pr.results finalErr finalWarn)⟩) := by
  unfold searchRun
  dsimp only
  rw [if_neg h]

/-! ## Shared concrete fixtures for the orchestration claims -/

/-- Download oracle that never produces a file and never logs. -/
def trivialDl : DlOracle := fun _ _ => (none, [])

/-- Page-count oracle standing for `fitz.open` raising. -/
def trivialOpen : List Nat → Option Nat := fun _ => none

/-- A record whose title contains the query term `quantum` (score 2). -/
def paperQuantum : Paper := { title := "quantum computing advances" }

/-- A record with no overlap with the query `quantum` (score 0; kept, since
one-term queries discard nothing). -/
def paperUnrelated : Paper := { title := "unrelated result listing" }

/-! ## C1 — the shape of what `search()` returns -/

/-- C1 counterexample: a run with a non-empty pool returns the download
package, which has no `status` field at all (`lookupKey "status"` is `none`
on the returned report). -/
theorem search_report_lacks_status_field :
    ((searchRun "quantum" none [("OpenAlex", SourceResult.returns [paperQuantum] [] [])]
        trivialDl true trivialOpen "downloads/S" "S").report.map (lookupKey "status"))
      = some none := by
  decide

/-- C1 (amended): `search()` returns either `None` (empty pool) or the
download package — a dict whose keys are exactly the zip/folder paths, the
three counts, the session id and the error/warning counts, with no `status`
or `papers` field — and every record in the final results list has a
non-empty title. -/
theorem search_returns_package_or_none :
    ∀ (query : String) (yr : Option (Int × Int)) (sources : List (String × SourceResult))
      (dl : DlOracle) (fa : Bool) (op : List Nat → Option Nat) (sf sid : String),
      query ≠ "" →
      (∀ r, (searchRun query yr sources dl fa op sf sid).report = some r →
        r.map Prod.fst = ["zip_path", "folder_path", "total_papers", "pdf_count",
          "abstract_count", "session_id", "error_count", "warning_count"] ∧
        lookupKey "status" r = none ∧ lookupKey "papers" r = none) ∧
      (∀ p ∈ (searchRun query yr sources dl fa op sf sid).results, p.title ≠ "") := by
  intro query yr sources dl fa op sf sid _
  by_cases h : deduplicatePapers (searchLoop query yr sources).allPapers = []
  · rw [searchRun_of_empty query yr sources dl fa op sf sid h]
    constructor
    · intro r hr
      simp at hr
    · intro p hp
      simp at hp
  · rw [searchRun_of_nonempty query yr sources dl fa op sf sid h]
    dsimp only
    constructor
    · intro r hr
      simp only [Option.some.injEq] at hr
      subst hr
      exact ⟨rfl, rfl, rfl⟩
    · intro p hp
      have htitle : p.title ∈ (processPapers dl fa op
          (deduplicatePapers (searchLoop query yr sources).allPapers)).results.map
            (fun q => q.title) :=
        List.mem_map_of_mem _ hp
      rw [processPapers_results_map_title] at htitle
      obtain ⟨q0, hq0, hteq⟩ := List.mem_map.mp htitle
      have hq1 : q0 ∈ (searchLoop query yr sources).allPapers :=
        mem_dedupGo _ _ _ _ hq0
      rw [searchLoop_eq] at hq1
      dsimp only at hq1
      obtain ⟨bl, hbl, hqbl⟩ := List.mem_flatten.mp hq1
      obtain ⟨s, hs, rfl⟩ := List.mem_map.mp hbl
      cases hres : s.2 with
      | raises m => simp [sourceBlock, hres] at hqbl
      | returns ps el wl =>
        simp only [sourceBlock, hres] at hqbl
        have hne := (mem_validateCollect (queryTermsOf query) _ q0
          ((List.mem_insertionSort scoreGe).mp hqbl)).1.1
        rw [← hteq]
        exact hne

/-- C1 witness: the amended claim instantiated on a one-source run. -/
theorem search_returns_package_or_none_witness :
    (∀ r, (searchRun "quantum" none [("OpenAlex", SourceResult.returns [paperQuantum] [] [])]
        trivialDl true trivialOpen "downloads/S" "S").report = some r →
      r.map Prod.fst = ["zip_path", "folder_path", "total_papers", "pdf_count",
        "abstract_count", "session_id", "error_count", "warning_count"] ∧
      lookupKey "status" r = none ∧ lookupKey "papers" r = none) ∧
    (∀ p ∈ (searchRun "quantum" none
        [("OpenAlex", SourceResult.returns [paperQuantum] [] [])]
        trivialDl true trivialOpen "downloads/S" "S").results, p.title ≠ "") :=
  search_returns_package_or_none "quantum" none
    [("OpenAlex", SourceResult.returns [paperQuantum] [] [])]
    trivialDl true trivialOpen "downloads/S" "S" (by decide)

/-! ## C2 — the empty-pool terminal state -/

/-- C2 counterexample: with an empty deduplicated pool (single raising
adapter), `search()` writes its log CSVs but the returned value is Python
`None`, not a report of any shape. -/
theorem search_empty_pool_returns_none :
    (searchRun "quantum" none [("PubMed Central", SourceResult.raises "ConnectionError")]
        trivialDl true trivialOpen "downloads/S" "S").report = none ∧
    (searchRun "quantum" none [("PubMed Central", SourceResult.raises "ConnectionError")]
        trivialDl true trivialOpen "downloads/S" "S").savedCsvs
      = ["Error_Log.csv", "Search_Log.csv"] := by
  decide

/-- C2 (amended): when the deduplicated pool is empty, `search()` raises no
exception, writes exactly the non-empty log CSVs, leaves the results empty,
still has one search-log outcome per adapter, and returns the `None`
sentinel rather than a report. -/
theorem search_empty_pool_saves_logs_returns_none :
    ∀ (query : String) (yr : Option (Int × Int)) (sources : List (String × SourceResult))
      (dl : DlOracle) (fa : Bool) (op : List Nat → Option Nat) (sf sid : String),
      deduplicatePapers (searchLoop query yr sources).allPapers = [] →
      (searchRun query yr sources dl fa op sf sid).report = none ∧
      (searchRun query yr sources dl fa op sf sid).results = [] ∧
      (searchRun query yr sources dl fa op sf sid).savedCsvs
        = savedLogCsvs (searchLoop query yr sources).errorLogs
            (searchLoop query yr sources).warningLogs
            (searchLoop query yr sources).searchLogs ∧
      (searchRun query yr sources dl fa op sf sid).searchLogs.length = sources.length := by
  intro query yr sources dl fa op sf sid h
  rw [searchRun_of_empty query yr sources dl fa op sf sid h]
  refine ⟨rfl, rfl, rfl, ?_⟩
  rw [searchLoop_eq]
  simp

/-- C2 witness: the amended claim instantiated on a run where the single
adapter raises. -/
theorem search_empty_pool_witness :
    (searchRun "quantum" none [("PubMed Central", SourceResult.raises "boom")]
        trivialDl true trivialOpen "d" "s").report = none ∧
    (searchRun "quantum" none [("PubMed Central", SourceResult.raises "boom")]
        trivialDl true trivialOpen "d" "s").results = [] ∧
    (searchRun "quantum" none [("PubMed Central", SourceResult.raises "boom")]
        trivialDl true trivialOpen "d" "s").savedCsvs
      = savedLogCsvs
          (searchLoop "quantum" none [("PubMed Central", SourceResult.raises "boom")]).errorLogs
          (searchLoop "quantum" none [("PubMed Central", SourceResult.raises "boom")]).warningLogs
          (searchLoop "quantum" none [("PubMed Central", SourceResult.raises "boom")]).searchLogs ∧
    (searchRun "quantum" none [("PubMed Central", SourceResult.raises "boom")]
        trivialDl true trivialOpen "d" "s").searchLogs.length
      = [("PubMed Central", SourceResult.raises "boom")].length :=
  search_empty_pool_saves_logs_returns_none "quantum" none
    [("PubMed Central", SourceResult.raises "boom")]
    trivialDl true trivialOpen "d" "s" (by decide)

/-! ## C3 — isolation of adapter failures -/

/-- One adapter call per source of the source's fixed 17-name order, 16 of
them raising, OpenAlex returning one valid record. -/
def c3sources : List (String × SourceResult) :=
  [ ("PubMed Central", SourceResult.raises "boom")
  , ("Europe PMC", SourceResult.raises "boom")
  , ("arXiv", SourceResult.raises "boom")
  , ("bioRxiv", SourceResult.raises "boom")
  , ("medRxiv", SourceResult.raises "boom")
  , ("ChemRxiv", SourceResult.raises "boom")
  , ("OpenAlex", SourceResult.returns [paperQuantum] [] [])
  , ("Semantic Scholar", SourceResult.raises "boom")
  , ("CORE", SourceResult.raises "boom")
  , ("Zenodo", SourceResult.raises "boom")
  , ("DOAJ", SourceResult.raises "boom")
  , ("OpenAIRE", SourceResult.raises "boom")
  , ("Figshare", SourceResult.raises "boom")
  , ("SSRN", SourceResult.raises "boom")
  , ("MDPI", SourceResult.raises "boom")
  , ("SciELO", SourceResult.raises "boom")
  , ("Redalyc", SourceResult.raises "boom") ]

/-- C3 counterexample: on the 16-of-17 run the surviving record is processed
(`results` has one entry) and `error_count` is 16, but the returned report
carries only paths and counts — there is no field holding the surviving
records, so the report does not "contain" them as claimed. -/
theorem search_report_contains_counts_not_records :
    ((searchRun "quantum" none c3sources trivialDl true trivialOpen "downloads/S" "S").report.map
        (fun r => r.map Prod.fst))
      = some ["zip_path", "folder_path", "total_papers", "pdf_count", "abstract_count",
          "session_id", "error_count", "warning_count"] ∧
    (searchRun "quantum" none c3sources trivialDl true trivialOpen
        "downloads/S" "S").results.length = 1 ∧
    ((searchRun "quantum" none c3sources trivialDl true trivialOpen "downloads/S" "S").report.map
        (lookupKey "error_count"))
      = some (some (RVal.n 16)) := by
  decide

theorem errLogs_length_of_no_internal (query : String) :
    ∀ sources : List (String × SourceResult),
      (∀ s ∈ sources, sourceInternalErr s = []) →
      (sources.flatMap (sourceErrLogs query)).length = countRaises sources := by
  intro sources
  induction sources with
  | nil => intro _; simp [countRaises]
  | cons s rest ih =>
    intro h
    have hs := h s (List.mem_cons_self _ _)
    have hr := ih (fun x hx => h x (List.mem_cons_of_mem _ hx))
    cases s with
    | mk name res =>
      cases res with
      | raises m =>
        simp [sourceErrLogs, countRaises, isRaises, List.filter_cons] at hr ⊢
        omega
      | returns ps el wl =>
        simp only [sourceInternalErr] at hs
        simp [sourceErrLogs, countRaises, isRaises, List.filter_cons, hs] at hr ⊢
        omega

/-- C3 (amended): the per-source loop records exactly one SourceOutcome per
adapter (FAILED for a raise, SUCCESS otherwise — so every adapter executes and
no raise aborts the run), the error log collects exactly one entry per raise
plus whatever returning adapters logged internally, and when no internal or
processing errors are logged and the pool is non-empty, the report's
`error_count` equals the number of raising adapters.  The surviving records
themselves are in the results list (their count in `total_papers`), not in
the report. -/
theorem search_isolates_adapter_failures :
    ∀ (query : String) (yr : Option (Int × Int)) (sources : List (String × SourceResult))
      (dl : DlOracle) (fa : Bool) (op : List Nat → Option Nat) (sf sid : String),
      (searchLoop query yr sources).searchLogs = sources.map (sourceOutcomeLog query yr) ∧
      (searchLoop query yr sources).errorLogs = sources.flatMap (sourceErrLogs query) ∧
      ((∀ s ∈ sources, sourceInternalErr s = []) →
        (processPapers dl fa op
          (deduplicatePapers (searchLoop query yr sources).allPapers)).errLogs = [] →
        ¬ deduplicatePapers (searchLoop query yr sources).allPapers = [] →
        ((searchRun query yr sources dl fa op sf sid).report.map (lookupKey "error_count"))
          = some (some (RVal.n (countRaises sources)))) := by
  intro query yr sources dl fa op sf sid
  refine ⟨by rw [searchLoop_eq], by rw [searchLoop_eq], ?_⟩
  intro hint hproc hne
  rw [searchRun_of_nonempty query yr sources dl fa op sf sid hne]
  dsimp only
  simp only [Option.map_some']
  have hlk : ∀ (res : List Paper) (fe : List ErrEntry) (fw : List WarnEntry),
      lookupKey "error_count" (packageReport sf sid res fe fw) = some (RVal.n fe.length) := by
    intro res fe fw
    rfl
  rw [hlk]
  have herr : (searchLoop query yr sources).errorLogs
      = sources.flatMap (sourceErrLogs query) := by rw [searchLoop_eq]
  rw [List.length_append, hproc, herr, errLogs_length_of_no_internal query sources hint]
  simp

/-- C3 witness: on the concrete 16-of-17 run, applying the isolation theorem
yields `error_count = countRaises c3sources`, which is 16. -/
theorem search_isolates_adapter_failures_witness :
    ((searchRun "quantum" none c3sources trivialDl true trivialOpen "d" "s").report.map
        (lookupKey "error_count"))
      = some (some (RVal.n (countRaises c3sources))) ∧
    countRaises c3sources = 16 :=
  ⟨(search_isolates_adapter_failures "quantum" none c3sources trivialDl true
      trivialOpen "d" "s").2.2 (by decide) (by decide) (by decide),
   by decide⟩

/-! ## C4 — monotonicity of the final score sequence -/

/-- Two sources whose validated batches arrive in the order (score 0,
score 2). -/
def c4sources : List (String × SourceResult) :=
  [ ("arXiv", SourceResult.returns [paperUnrelated] [] [])
  , ("OpenAlex", SourceResult.returns [paperQuantum] [] []) ]

/-- C4 counterexample: the final result sequence of a concrete run has score
sequence `[0, 2]`, which is not monotonically non-increasing — a later record
outscores an earlier one, because each source's batch is sorted separately
and the batches are only concatenated. -/
theorem final_scores_not_globally_monotone :
    ((searchRun "quantum" none c4sources trivialDl true trivialOpen "d" "s").results.map
        (fun p => p.relevanceScore)) = [0, 2] ∧
    ¬ List.Pairwise (fun a b : Nat => b ≤ a)
        ((searchRun "quantum" none c4sources trivialDl true trivialOpen "d" "s").results.map
          (fun p => p.relevanceScore)) := by
  decide

/-- C4 (amended): relevance scores are monotonically non-increasing within
each source's validated batch; the candidate pool is exactly the
concatenation of these per-source batches, and the final result sequence is
the order-preserving deduplication of that concatenation (processing keeps
each record's score) — it is not globally sorted across sources. -/
theorem scores_monotone_within_source_blocks :
    ∀ (query : String) (yr : Option (Int × Int)) (sources : List (String × SourceResult)),
      (searchLoop query yr sources).allPapers
        = (sources.map (sourceBlock query yr)).flatten ∧
      (∀ b ∈ sources.map (sourceBlock query yr), List.Sorted scoreGe b) ∧
      (∀ (dl : DlOracle) (fa : Bool) (op : List Nat → Option Nat) (sf sid : String),
        (searchRun query yr sources dl fa op sf sid).results.map (fun p => p.relevanceScore)
          = (deduplicatePapers ((sources.map (sourceBlock query yr)).flatten)).map
              (fun p => p.relevanceScore)) := by
  intro query yr sources
  have hall : (searchLoop query yr sources).allPapers
      = (sources.map (sourceBlock query yr)).flatten := by rw [searchLoop_eq]
  refine ⟨hall, ?_, ?_⟩
  · intro b hb
    obtain ⟨s, hs, rfl⟩ := List.mem_map.mp hb
    cases hres : s.2 with
    | raises m => simp [sourceBlock, hres]
    | returns ps el wl =>
      simp only [sourceBlock, hres]
      unfold validatePapers
      exact List.sorted_insertionSort scoreGe _
  · intro dl fa op sf sid
    by_cases h : deduplicatePapers (searchLoop query yr sources).allPapers = []
    · rw [searchRun_of_empty query yr sources dl fa op sf sid h]
      dsimp only
      rw [← hall, h]
    · rw [searchRun_of_nonempty query yr sources dl fa op sf sid h]
      dsimp only
      rw [processPapers_results_map_score, hall]

/-- C4 witness: on the concrete two-source run, the second source's batch is
sorted and the pool is the concatenated batches, via the monotonicity
theorem. -/
theorem scores_monotone_witness :
    List.Sorted scoreGe
      (sourceBlock "quantum" none ("OpenAlex", SourceResult.returns [paperQuantum] [] [])) ∧
    (searchLoop "quantum" none c4sources).allPapers
      = (c4sources.map (sourceBlock "quantum" none)).flatten :=
  ⟨(scores_monotone_within_source_blocks "quantum" none c4sources).2.1 _ (by decide),
   (scores_monotone_within_source_blocks "quantum" none c4sources).1⟩

end DrR
